import Mathlib

/-!
Shallow embedding of the `sparql-benchmark-runner` fork (benchmark execution
engine, traversal-metric input preparation, query-metadata loading and result
aggregation), with theorems checking the specification's claims against it.

JavaScript numbers are idealised as rationals; the `NaN` produced by invalid
arithmetic (for example `undefined - x`) is modelled explicitly by `JNum.nan`,
because the aggregation code can feed non-numeric fields into arithmetic.
-/

/-- A JavaScript number as this code base uses it: a finite value (idealised
as a rational) or the `NaN` produced by invalid arithmetic. A JS `undefined`
that flows into arithmetic or a truthiness test behaves exactly like `NaN`
(both yield `NaN` under arithmetic and both are falsy), so it is also
represented by `JNum.nan` at those use sites. -/
inductive JNum where
  | nan : JNum
  | num : ℚ → JNum
deriving DecidableEq

/-- JS addition: any operand that is `NaN` (or `undefined`) gives `NaN`. -/
def JNum.add : JNum → JNum → JNum
  | JNum.num a, JNum.num b => JNum.num (a + b)
  | _, _ => JNum.nan

/-- JS subtraction with `NaN` propagation. -/
def JNum.sub : JNum → JNum → JNum
  | JNum.num a, JNum.num b => JNum.num (a - b)
  | _, _ => JNum.nan

/-- JS multiplication with `NaN` propagation. -/
def JNum.mul : JNum → JNum → JNum
  | JNum.num a, JNum.num b => JNum.num (a * b)
  | _, _ => JNum.nan

/-- JS `x ** 2`. -/
def JNum.sq (x : JNum) : JNum := JNum.mul x x

/-- JS division restricted to the divisors this code uses (positive counts):
`NaN` propagates; a zero divisor is mapped to `NaN` (the code only ever
divides by a strictly positive iteration count). -/
def JNum.div : JNum → JNum → JNum
  | JNum.num a, JNum.num b => if b = 0 then JNum.nan else JNum.num (a / b)
  | _, _ => JNum.nan

/-- JS truthiness of a number: `0` and `NaN` (and `undefined`) are falsy. -/
def JNum.truthy : JNum → Bool
  | JNum.nan => false
  | JNum.num q => q != 0

/-- JS array indexing `x[i]` as used inside `convertZeroIndexedToOneIndexed`:
an out-of-range index yields `undefined`, which behaves as `JNum.nan` in the
arithmetic and truthiness tests applied to it there. -/
def jsGet (x : List JNum) (i : ℕ) : JNum := x.getD i JNum.nan

/-- `CalculateOptimalTraversalMetric.convertZeroIndexedToOneIndexed`
(CalculateOptimalTraversalMetric.ts line 16-18):
`edgeList.map(x => [x[0]+1, x[1]+1, x[2] ? x[2] : 1])`. Note the weight
component uses JS truthiness: a weight of `0` is falsy and is replaced by `1`. -/
def convertZeroIndexedToOneIndexed (edgeList : List (List JNum)) : List (List JNum) :=
  edgeList.map (fun x =>
    [JNum.add (jsGet x 0) (JNum.num 1),
     JNum.add (jsGet x 1) (JNum.num 1),
     if (jsGet x 2).truthy then jsGet x 2 else JNum.num 1])

/-- Index into a mapped list, below the length. -/
theorem getD_map_of_lt {α β : Type} (f : α → β) (l : List α) (i : ℕ) (d : α) (dB : β)
    (h : i < l.length) : (l.map f).getD i dB = f (l.getD i d) := by
  induction l generalizing i with
  | nil => simp at h
  | cons a l ih =>
      cases i with
      | zero => simp [List.getD]
      | succ n =>
          simp only [List.getD, List.map_cons, List.get?_cons_succ] at ih ⊢
          exact ih n (Nat.lt_of_succ_lt_succ h)

/-- C2 (counterexample): the Preparator does NOT pass a weight of `0` through
unchanged: the zero-indexed triple `(3, 5, 0)` is converted to `(4, 6, 1)`,
not `(4, 6, 0)`, because the source tests the weight with JS truthiness
(`x[2] ? x[2] : 1`) and `0` is falsy. -/
theorem C2_counterexample :
    convertZeroIndexedToOneIndexed [[JNum.num 3, JNum.num 5, JNum.num 0]] =
        [[JNum.num 4, JNum.num 6, JNum.num 1]] ∧
      convertZeroIndexedToOneIndexed [[JNum.num 3, JNum.num 5, JNum.num 0]] ≠
        [[JNum.num 4, JNum.num 6, JNum.num 0]] := by
  refine ⟨?_, ?_⟩ <;> simp [convertZeroIndexedToOneIndexed, jsGet, JNum.add, JNum.truthy] <;>
    norm_num

/-- C2 (amended claim): for every zero-indexed edge triple `(s, t, w)` in the
selected edge list, the conversion outputs `(s+1, t+1, w)` when the weight `w`
is nonzero, but outputs weight `1` both when the weight component is omitted
from the triple and when `w = 0` (the source tests the weight with JS
truthiness, so a falsy weight defaults to `1`). -/
theorem C2_amended :
    (∀ (edgeList : List (List JNum)) (i : ℕ) (s t w : ℚ),
      i < edgeList.length →
      edgeList.getD i [] = [JNum.num s, JNum.num t, JNum.num w] →
      (convertZeroIndexedToOneIndexed edgeList).getD i [] =
        [JNum.num (s + 1), JNum.num (t + 1),
          if w = 0 then JNum.num 1 else JNum.num w]) ∧
    (∀ (edgeList : List (List JNum)) (i : ℕ) (s t : ℚ),
      i < edgeList.length →
      edgeList.getD i [] = [JNum.num s, JNum.num t] →
      (convertZeroIndexedToOneIndexed edgeList).getD i [] =
        [JNum.num (s + 1), JNum.num (t + 1), JNum.num 1]) := by
  constructor
  · intro edgeList i s t w hi hget
    rw [convertZeroIndexedToOneIndexed, getD_map_of_lt _ edgeList i [] _ hi, hget]
    by_cases hw : w = 0 <;> simp [hw, jsGet, JNum.add, JNum.truthy]
  · intro edgeList i s t hi hget
    rw [convertZeroIndexedToOneIndexed, getD_map_of_lt _ edgeList i [] _ hi, hget]
    simp [jsGet, JNum.add, JNum.truthy]

/-- C2 witness: the amended claim instantiated on the concrete triple
`(2, 3, 7)` and the concrete weightless pair `(2, 3)`. -/
theorem C2_amended_witness :
    (convertZeroIndexedToOneIndexed [[JNum.num 2, JNum.num 3, JNum.num 7]]).getD 0 [] =
        [JNum.num 3, JNum.num 4, JNum.num 7] ∧
      (convertZeroIndexedToOneIndexed [[JNum.num 2, JNum.num 3]]).getD 0 [] =
        [JNum.num 3, JNum.num 4, JNum.num 1] := by
  constructor
  · have h := C2_amended.1 [[JNum.num 2, JNum.num 3, JNum.num 7]] 0 2 3 7 (by simp) rfl
    rw [h]
    norm_num
  · have h := C2_amended.2 [[JNum.num 2, JNum.num 3]] 0 2 3 (by simp) rfl
    rw [h]
    norm_num

/-- One entry of `ITraversalTopology.metadataNode`: the code only reads its
`hasParent` flag (with a JS falsiness test). -/
structure NodeMeta where
  hasParent : Bool
deriving DecidableEq

/-- `ITraversalTopology` (CalculateOptimalTraversalMetric.ts lines 169-185).
JS records are modelled as association lists in key insertion order. -/
structure ITraversalTopology where
  nodeToIndex : List (String × ℚ)
  edgeListUnWeighted : List (List JNum)
  edgeListRequestTime : List (List JNum)
  edgeListDocumentSize : List (List JNum)
  edgesInGraph : List (String × ℚ)
  metadataNode : List NodeMeta
  traversalOrder : List String
  traversalOrderEdges : List (List JNum)
deriving DecidableEq

/-- The `topologyType` union. -/
inductive TopologyType where
  | unweighted : TopologyType
  | httpRequestTime : TopologyType
  | documentSize : TopologyType
deriving DecidableEq

/-- `IMetricInput` of the external `optimal-traversal-metric` package, as
filled in by `prepareMetricInput`. -/
structure IMetricInput where
  edgeList : List (List JNum)
  contributingNodes : List (List JNum)
  traversedPath : List (List JNum)
  numNodes : ℕ
  roots : List ℕ
deriving DecidableEq

/-- JS record access `trackedTopology.nodeToIndex[y]`: a missing key yields
`undefined`, which behaves as `NaN` in the `+ 1` applied to it. -/
def recordLookup (m : List (String × ℚ)) (key : String) : JNum :=
  match m.lookup key with
  | some v => JNum.num v
  | none => JNum.nan

/-- The root collection loop of `prepareMetricInput` (lines 48-55): collect
`k+1` for every zero-indexed metadata entry whose `hasParent` is falsy. -/
def collectRoots (nodeMetaData : List NodeMeta) : List ℕ :=
  (List.range nodeMetaData.length).filterMap (fun k =>
    if (nodeMetaData.getD k { hasParent := true }).hasParent then none else some (k + 1))

/-- `CalculateOptimalTraversalMetric.prepareMetricInput` (lines 20-64). -/
def prepareMetricInput (trackedTopology : ITraversalTopology)
    (contributingDocuments : List (List String)) (metricType : TopologyType) : IMetricInput :=
  let edgeList :=
    match metricType with
    | TopologyType.unweighted => trackedTopology.edgeListUnWeighted
    | TopologyType.httpRequestTime => trackedTopology.edgeListRequestTime
    | TopologyType.documentSize => trackedTopology.edgeListDocumentSize
  let edgeListOneIndexed := convertZeroIndexedToOneIndexed edgeList
  let relevantDocsOneIndexed := contributingDocuments.map (fun x =>
    x.map (fun y => JNum.add (recordLookup trackedTopology.nodeToIndex y) (JNum.num 1)))
  let traversalPathOneIndexed := convertZeroIndexedToOneIndexed trackedTopology.traversalOrderEdges
  { edgeList := edgeListOneIndexed
    contributingNodes := relevantDocsOneIndexed
    traversedPath := traversalPathOneIndexed
    numNodes := trackedTopology.metadataNode.length
    roots := collectRoots trackedTopology.metadataNode }

/-- `CalculateOptimalTraversalMetric.calculateMetricFirstKResults`
(lines 75-111). The external evaluator `metric.runMetricFirstK` is not part
of this repository, so it is abstracted as the function argument
`runMetricFirstK` (the `searchType` and solver/sampling parameters carry no
logic in this system and are absorbed into that abstraction). The loop pushes
one slot per `k` of `kToCheck`: the evaluator's score when
`metricInput.contributingNodes.length > k`, and the sentinel `-1` otherwise. -/
def calculateMetricFirstKResults (runMetricFirstK : ℕ → IMetricInput → ℚ)
    (kToCheck : List ℕ) (topology : ITraversalTopology)
    (contributingDocuments : List (List String)) (metricType : TopologyType) : List ℚ :=
  let metricInput := prepareMetricInput topology contributingDocuments metricType
  kToCheck.foldl (fun metricsFirstK k =>
    if metricInput.contributingNodes.length > k then
      metricsFirstK ++ [runMetricFirstK k metricInput]
    else
      metricsFirstK ++ [-1]) []

/-- The push loop of `calculateMetricFirstKResults`, characterised as a map. -/
theorem calculateMetricFirstKResults_foldl (f : ℕ → IMetricInput → ℚ) (mi : IMetricInput) :
    ∀ (l : List ℕ) (acc : List ℚ),
      l.foldl (fun a k =>
          if mi.contributingNodes.length > k then a ++ [f k mi] else a ++ [-1]) acc =
        acc ++ l.map (fun k => if mi.contributingNodes.length > k then f k mi else -1) := by
  intro l
  induction l with
  | nil => simp
  | cons k l ih =>
      intro acc
      simp only [List.foldl_cons, List.map_cons]
      by_cases h : mi.contributingNodes.length > k
      · rw [if_pos h, ih, if_pos h]
        simp
      · rw [if_neg h, ih, if_neg h]
        simp

/-- C3: for every `k` in the configured list, the slot pushed by
`calculateMetricFirstKResults` is the external evaluator's score exactly when
the number of contributing-node groups strictly exceeds `k`, and the sentinel
`-1` otherwise; since the characterisation holds for an arbitrary evaluator
function, a slot guarded by `¬(length > k)` is `-1` without the evaluator
being consulted at all. In particular, with `kToCheck = [1,2,4]` and 3
contributing groups, the `k=4` slot is `-1` while the `k=1` and `k=2` slots
are evaluator-computed values. -/
theorem C3_firstK_guard :
    (∀ (runMetricFirstK : ℕ → IMetricInput → ℚ) (kToCheck : List ℕ)
        (topology : ITraversalTopology) (contributingDocuments : List (List String))
        (metricType : TopologyType),
      calculateMetricFirstKResults runMetricFirstK kToCheck topology
          contributingDocuments metricType =
        kToCheck.map (fun k =>
          if (prepareMetricInput topology contributingDocuments
                metricType).contributingNodes.length > k then
            runMetricFirstK k (prepareMetricInput topology contributingDocuments metricType)
          else
            -1)) ∧
    (∀ (runMetricFirstK : ℕ → IMetricInput → ℚ) (topology : ITraversalTopology)
        (contributingDocuments : List (List String)),
      contributingDocuments.length = 3 →
      calculateMetricFirstKResults runMetricFirstK [1, 2, 4] topology
          contributingDocuments TopologyType.unweighted =
        [runMetricFirstK 1 (prepareMetricInput topology contributingDocuments
            TopologyType.unweighted),
         runMetricFirstK 2 (prepareMetricInput topology contributingDocuments
            TopologyType.unweighted),
         -1]) := by
  have hchar : ∀ (runMetricFirstK : ℕ → IMetricInput → ℚ) (kToCheck : List ℕ)
      (topology : ITraversalTopology) (contributingDocuments : List (List String))
      (metricType : TopologyType),
      calculateMetricFirstKResults runMetricFirstK kToCheck topology
          contributingDocuments metricType =
        kToCheck.map (fun k =>
          if (prepareMetricInput topology contributingDocuments
                metricType).contributingNodes.length > k then
            runMetricFirstK k (prepareMetricInput topology contributingDocuments metricType)
          else
            -1) := by
    intro f kToCheck topology docs metricType
    unfold calculateMetricFirstKResults
    rw [calculateMetricFirstKResults_foldl f (prepareMetricInput topology docs metricType)
      kToCheck []]
    simp
  refine ⟨hchar, ?_⟩
  intro f topology docs hlen
  rw [hchar]
  have hnodes : (prepareMetricInput topology docs
      TopologyType.unweighted).contributingNodes.length = 3 := by
    simp [prepareMetricInput, hlen]
  simp [hnodes]

/-- C3 witness: a concrete evaluator, topology and 3-element
contributing-documents list; the `k=4` slot is the sentinel. -/
theorem C3_firstK_guard_witness :
    calculateMetricFirstKResults (fun k _ => (k : ℚ) + 100) [1, 2, 4]
        ⟨[], [], [], [], [], [], [], []⟩ [["a"], ["b"], ["c"]] TopologyType.unweighted =
      [101, 102, -1] := by
  have h := C3_firstK_guard.2 (fun k _ => (k : ℚ) + 100)
    ⟨[], [], [], [], [], [], [], []⟩ [["a"], ["b"], ["c"]] (by simp)
  rw [h]
  norm_num

/-- The topology literal used both as the initial value in `executeQuery` and
as the fallback in the catch branch of `executeQueries` (part_000 lines
101-108 and 200-207). -/
def emptyTopology : ITraversalTopology :=
  { nodeToIndex := []
    edgeListUnWeighted := []
    edgeListRequestTime := []
    edgeListDocumentSize := []
    edgesInGraph := []
    metadataNode := []
    traversalOrder := []
    traversalOrderEdges := [] }

/-- One event of the streamed result of a query, in emission order. Each
event carries the elapsed wall-clock time `countTime` would report at that
instant (the embedding's stand-in for `process.hrtime`). A data row optionally
carries a parsed `_trackedTopology` snapshot together with the parsed
`_sourceAttribution` provenance array of that row. -/
inductive StreamEvent where
  | dataEv (time : ℚ) (topologyRow : Option (ITraversalTopology × List String)) : StreamEvent
  | metadataEv (metadata : List (String × String)) : StreamEvent
  | errorEv (time : ℚ) (message : String) : StreamEvent
  | endEv (time : ℚ) : StreamEvent
deriving DecidableEq

/-- The value `executeQuery` resolves with (part_000 lines 241-242). -/
structure QueryOutput where
  count : ℕ
  time : ℚ
  timestamps : List ℚ
  trackedTopology : ITraversalTopology
  contributingDocuments : List (List String)
  metadata : List (String × String)
deriving DecidableEq

/-- The `partialOutput` attached to a stream error (part_000 lines 229-234):
note it carries only `count`, `time`, `timestamps` and `metadata` — no
`trackedTopology` and no `contributingDocuments`. -/
structure PartialOutput where
  count : ℕ
  time : ℚ
  timestamps : List ℚ
  metadata : List (String × String)
deriving DecidableEq

/-- The error `executeQuery` rejects with: its message, and the attached
partial output when the stream itself raised the error. -/
structure QueryError where
  message : String
  partialOutput : Option PartialOutput
deriving DecidableEq

/-- The mutable locals of the stream-consumption closure of `executeQuery`
(part_000 lines 200-212). -/
structure StreamState where
  trackedTopology : ITraversalTopology
  contributingDocuments : List (List String)
  count : ℕ
  timestamps : List ℚ
  metadata : List (String × String)
deriving DecidableEq

/-- Initial stream state of `executeQuery` (part_000 lines 200-212). -/
def initialStreamState : StreamState :=
  { trackedTopology := emptyTopology
    contributingDocuments := []
    count := 0
    timestamps := []
    metadata := [] }

/-- The event handlers of `executeQuery` (part_000 lines 213-243), run over
the stream's events in order: a data row first updates the topology snapshot
and pushes its provenance when the row carries them, then increments `count`,
then (when timestamp recording is on) pushes an arrival timestamp; a metadata
event replaces the metadata; the first error event rejects with the partial
output accumulated so far; the first end event resolves. `none` models a
stream that never terminates (the promise never settles). -/
def processStream (timestampsRecording : Bool) :
    StreamState → List StreamEvent → Option (Except QueryError QueryOutput)
  | _, [] => none
  | s, StreamEvent.dataEv t topologyRow :: rest =>
      let s1 :=
        match topologyRow with
        | some (topo, attribution) =>
            { s with
              trackedTopology := topo
              contributingDocuments := s.contributingDocuments ++ [attribution] }
        | none => s
      let s2 :=
        { s1 with
          count := s1.count + 1
          timestamps :=
            if timestampsRecording then s1.timestamps ++ [t] else s1.timestamps }
      processStream timestampsRecording s2 rest
  | s, StreamEvent.metadataEv m :: rest =>
      processStream timestampsRecording { s with metadata := m } rest
  | s, StreamEvent.errorEv t msg :: _ =>
      some (Except.error
        { message := msg
          partialOutput := some
            { count := s.count
              time := t
              timestamps := s.timestamps
              metadata := s.metadata } })
  | s, StreamEvent.endEv t :: _ =>
      some (Except.ok
        { count := s.count
          time := t
          timestamps := s.timestamps
          trackedTopology := s.trackedTopology
          contributingDocuments := s.contributingDocuments
          metadata := s.metadata })

/-- The timeout rejection of `executeQuery` (part_000 line 182): a plain
`Error` with no `partialOutput` attached. -/
def timeoutError : QueryError :=
  { message := "Timeout for running query", partialOutput := none }

/-- `executeQuery` races stream consumption against the optional overall
timeout with `Promise.race` (part_000 lines 178-245). `timeoutConfigured`
models `this.timeout` being set; `timeoutFirst` records which side of the
race settles first (real time is outside the embedding). -/
def executeQueryOutcome (timeoutConfigured timeoutFirst timestampsRecording : Bool)
    (events : List StreamEvent) : Option (Except QueryError QueryOutput) :=
  if timeoutConfigured && timeoutFirst then some (Except.error timeoutError)
  else processStream timestampsRecording initialStreamState events

/-- One Result Record of the accumulator map (part_000 line 135). -/
structure IBenchmarkResult where
  name : String
  id : String
  count : ℕ
  time : ℚ
  timestamps : List ℚ
  error : Bool
  metricsCalculated : List ℚ
  metadata : List (String × String)
deriving DecidableEq

/-- The local variables of the innermost loop body of `executeQueries` after
the try/catch (part_000 lines 82-112). `trackedTopology` and
`contributingDocuments` are `Option`s because the catch branch that
destructures `partialOutput` leaves them `undefined` (the attached partial
output has no such fields), while the no-partial-output branch sets them to
concrete empty values. -/
structure ExecLocals where
  count : ℕ
  time : ℚ
  timestamps : List ℚ
  trackedTopology : Option ITraversalTopology
  contributingDocuments : Option (List (List String))
  metadata : List (String × String)
  errorObject : Option QueryError
deriving DecidableEq

/-- The try/catch of `executeQueries` (part_000 lines 91-112) applied to the
outcome of `executeQuery`. -/
def execLocalsOf (outcome : Except QueryError QueryOutput) : ExecLocals :=
  match outcome with
  | Except.ok o =>
      { count := o.count
        time := o.time
        timestamps := o.timestamps
        trackedTopology := some o.trackedTopology
        contributingDocuments := some o.contributingDocuments
        metadata := o.metadata
        errorObject := none }
  | Except.error e =>
      match e.partialOutput with
      | some p =>
          { count := p.count
            time := p.time
            timestamps := p.timestamps
            trackedTopology := none
            contributingDocuments := none
            metadata := p.metadata
            errorObject := some e }
      | none =>
          { count := 0
            time := 0
            timestamps := []
            trackedTopology := some emptyTopology
            contributingDocuments := some []
            metadata := []
            errorObject := some e }

/-- The metric block of `executeQueries` (part_000 lines 114-133). Reading
`contributingDocuments.length` while `contributingDocuments` is `undefined`
throws a JS `TypeError`, modelled as `Except.error`; likewise the evaluator
would throw when handed an `undefined` topology. The external evaluator calls
are abstracted as the function arguments `metricAll` and `runMetricFirstK`. -/
def computeMetrics (metricAll : IMetricInput → ℚ) (runMetricFirstK : ℕ → IMetricInput → ℚ)
    (l : ExecLocals) : Except String (List ℚ) :=
  if l.count > 0 then
    match l.contributingDocuments with
    | none => Except.error "TypeError: contributingDocuments is undefined"
    | some docs =>
        if docs.length > 0 then
          match l.trackedTopology with
          | none => Except.error "TypeError: trackedTopology is undefined"
          | some topo =>
              Except.ok
                ([metricAll (prepareMetricInput topo docs TopologyType.unweighted)] ++
                  calculateMetricFirstKResults runMetricFirstK [1, 2, 4] topo docs
                    TopologyType.unweighted)
        else
          Except.ok [-1, -1, -1, -1]
  else
    Except.ok [-1, -1, -1, -1]

/-- The timestamp-combining loop of `executeQueries` (part_000 lines
146-149): elementwise sums up to the length of the shorter list; the
accumulated record's entries beyond that length stay unchanged, and its
length never changes. -/
def combineTimestamps (old ts : List ℚ) : List ℚ :=
  old.zipWith (· + ·) ts ++ old.drop ts.length

/-- The merge branch of `executeQueries` for an existing record (part_000
lines 136-150): set `error` to `true` when this iteration failed, add the
time, and combine the timestamps; every other field is untouched. -/
def mergeEntry (dataEntry : IBenchmarkResult) (errorObject : Option QueryError)
    (time : ℚ) (timestamps : List ℚ) : IBenchmarkResult :=
  let e1 := if errorObject.isSome then { dataEntry with error := true } else dataEntry
  { e1 with
    time := e1.time + time
    timestamps := combineTimestamps e1.timestamps timestamps }

/-- In-place update of the record stored under `key` in the accumulator. -/
def replaceEntry (data : List (String × IBenchmarkResult)) (key : String)
    (entry : IBenchmarkResult) : List (String × IBenchmarkResult) :=
  data.map (fun kv => if kv.1 = key then (key, entry) else kv)

/-- One execution of the body of the innermost loop of `executeQueries`
(part_000 lines 80-160, without the logging and the sleeps): process the
outcome of `executeQuery` for query `name`:`id` and merge the measurement
into the accumulator keyed by `name ++ id`. An uncaught JS exception (the
`TypeError` of the metric block) is modelled as `Except.error`: it aborts
`executeQueries` and therefore the whole run. -/
def executeQueriesStep (metricAll : IMetricInput → ℚ)
    (runMetricFirstK : ℕ → IMetricInput → ℚ)
    (data : List (String × IBenchmarkResult)) (name id : String)
    (outcome : Except QueryError QueryOutput) :
    Except String (List (String × IBenchmarkResult)) :=
  let l := execLocalsOf outcome
  match computeMetrics metricAll runMetricFirstK l with
  | Except.error e => Except.error e
  | Except.ok metricsCalculated =>
      let key := name ++ id
      Except.ok
        (match data.lookup key with
        | none =>
            data ++ [(key,
              { name := name
                id := id
                count := l.count
                time := l.time
                timestamps := l.timestamps
                error := l.errorObject.isSome
                metricsCalculated := metricsCalculated
                metadata := l.metadata })]
        | some dataEntry =>
            replaceEntry data key (mergeEntry dataEntry l.errorObject l.time l.timestamps))

/-- The averaging loop of `run` (part_000 lines 60-63): divide every record's
time and every timestamp entry by the replication count, flooring the result
(`Math.floor`). -/
def averageResults (results : List (String × IBenchmarkResult)) (replication : ℕ) :
    List (String × IBenchmarkResult) :=
  results.map (fun kv =>
    (kv.1,
      { kv.2 with
        time := (⌊kv.2.time / (replication : ℚ)⌋ : ℤ)
        timestamps := kv.2.timestamps.map (fun t => ((⌊t / (replication : ℚ)⌋ : ℤ) : ℚ)) }))

/-- C1 (code evidence): a stream that emits 5 rows and then an error makes
`executeQuery` reject with `count = 5` attached as partial output — but the
attached partial output carries no `contributingDocuments`, so the metric
block of `executeQueries` (line 116 of part_000) evaluates
`contributingDocuments.length` on `undefined` and throws a `TypeError` that
is not caught anywhere in `executeQueries`: the run aborts and no Result
Record is stored for the query. -/
theorem C1_partial_error_aborts_run :
    processStream true initialStreamState
        [StreamEvent.dataEv 10 none, StreamEvent.dataEv 20 none, StreamEvent.dataEv 30 none,
          StreamEvent.dataEv 40 none, StreamEvent.dataEv 50 none,
          StreamEvent.errorEv 60 "stream failed"] =
      some (Except.error
        { message := "stream failed"
          partialOutput := some
            { count := 5, time := 60, timestamps := [10, 20, 30, 40, 50], metadata := [] } }) ∧
    executeQueriesStep (fun _ => 0) (fun _ _ => 0) [] "q" "0"
        (Except.error
          { message := "stream failed"
            partialOutput := some
              { count := 5, time := 60, timestamps := [10, 20, 30, 40, 50], metadata := [] } }) =
      Except.error "TypeError: contributingDocuments is undefined" := by
  exact ⟨rfl, rfl⟩

/-- C8: when the configured overall timeout elapses before the result stream
completes, `executeQuery` fails with the `Timeout` error, which carries no
partial data; `executeQueries` then records a zero measurement for that
(name, id) pair — `count = 0`, `time = 0`, empty timestamps — with
`error = true` (and the four `-1` metric sentinels), and continues normally. -/
theorem C8_timeout_zero_measurement (timestampsRecording : Bool)
    (events : List StreamEvent) (metricAll : IMetricInput → ℚ)
    (runMetricFirstK : ℕ → IMetricInput → ℚ)
    (data : List (String × IBenchmarkResult)) (name id : String)
    (h : data.lookup (name ++ id) = none) :
    executeQueryOutcome true true timestampsRecording events =
        some (Except.error timeoutError) ∧
      timeoutError.partialOutput = none ∧
      executeQueriesStep metricAll runMetricFirstK data name id
          (Except.error timeoutError) =
        Except.ok (data ++ [(name ++ id,
          { name := name
            id := id
            count := 0
            time := 0
            timestamps := []
            error := true
            metricsCalculated := [-1, -1, -1, -1]
            metadata := [] })]) := by
  refine ⟨rfl, rfl, ?_⟩
  simp [executeQueriesStep, execLocalsOf, computeMetrics, timeoutError, h]

/-- C8 witness: a fresh accumulator and the timeout outcome. -/
theorem C8_timeout_zero_measurement_witness :
    executeQueriesStep (fun _ => 0) (fun _ _ => 0) [] "q" "0"
        (Except.error timeoutError) =
      Except.ok [("q" ++ "0",
        { name := "q"
          id := "0"
          count := 0
          time := 0
          timestamps := []
          error := true
          metricsCalculated := [-1, -1, -1, -1]
          metadata := [] })] := by
  exact (C8_timeout_zero_measurement false [] (fun _ => 0) (fun _ _ => 0) [] "q" "0" rfl).2.2

/-- Looking a key up after mapping a key-preserving function over an
association list applies the function to the looked-up value. -/
theorem lookup_map_value (g : IBenchmarkResult → IBenchmarkResult) :
    ∀ (results : List (String × IBenchmarkResult)) (key : String),
      ((results.map (fun kv => (kv.1, g kv.2))).lookup key) = (results.lookup key).map g := by
  intro results
  induction results with
  | nil => intro key; simp
  | cons kv rest ih =>
      intro key
      by_cases h : key = kv.1
      · simp [List.lookup, h]
      · have hbeq : (key == kv.1) = false := by simpa using h
        simp [List.lookup, hbeq, ih]

/-- C7: the averaging loop of `run` floors every record's accumulated time
and every accumulated timestamp entry after dividing by the replication
count; in particular an accumulator built by two `executeQueries` iterations
of the same query with times 100 and 200 averages, at replication 2, to a
record with time `⌊300 / 2⌋ = 150`. -/
theorem C7_average_floor_division :
    (∀ (results : List (String × IBenchmarkResult)) (replication : ℕ)
        (key : String) (r : IBenchmarkResult),
      0 < replication →
      results.lookup key = some r →
      (averageResults results replication).lookup key =
        some { r with
          time := ((⌊r.time / (replication : ℚ)⌋ : ℤ) : ℚ)
          timestamps := r.timestamps.map (fun t => ((⌊t / (replication : ℚ)⌋ : ℤ) : ℚ)) }) ∧
    (∀ (metricAll : IMetricInput → ℚ) (runMetricFirstK : ℕ → IMetricInput → ℚ),
      executeQueriesStep metricAll runMetricFirstK [] "a" "0"
          (Except.ok
            { count := 0, time := 100, timestamps := [], trackedTopology := emptyTopology,
              contributingDocuments := [], metadata := [] }) =
        Except.ok [("a" ++ "0",
          { name := "a", id := "0", count := 0, time := 100, timestamps := [],
            error := false, metricsCalculated := [-1, -1, -1, -1], metadata := [] })] ∧
      executeQueriesStep metricAll runMetricFirstK
          [("a" ++ "0",
            { name := "a", id := "0", count := 0, time := 100, timestamps := [],
              error := false, metricsCalculated := [-1, -1, -1, -1], metadata := [] })]
          "a" "0"
          (Except.ok
            { count := 0, time := 200, timestamps := [], trackedTopology := emptyTopology,
              contributingDocuments := [], metadata := [] }) =
        Except.ok [("a" ++ "0",
          { name := "a", id := "0", count := 0, time := 300, timestamps := [],
            error := false, metricsCalculated := [-1, -1, -1, -1], metadata := [] })] ∧
      averageResults
          [("a" ++ "0",
            { name := "a", id := "0", count := 0, time := 300, timestamps := [],
              error := false, metricsCalculated := [-1, -1, -1, -1], metadata := [] })] 2 =
        [("a" ++ "0",
          { name := "a", id := "0", count := 0, time := 150, timestamps := [],
            error := false, metricsCalculated := [-1, -1, -1, -1], metadata := [] })]) := by
  constructor
  · intro results replication key r _ hlook
    unfold averageResults
    rw [lookup_map_value
      (fun v => { v with
        time := ((⌊v.time / (replication : ℚ)⌋ : ℤ) : ℚ)
        timestamps := v.timestamps.map (fun t => ((⌊t / (replication : ℚ)⌋ : ℤ) : ℚ)) })
      results key, hlook]
    rfl
  · intro metricAll runMetricFirstK
    refine ⟨rfl, ?_, ?_⟩
    · simp only [executeQueriesStep, execLocalsOf, computeMetrics, mergeEntry,
        combineTimestamps, replaceEntry]
      norm_num
    · simp only [averageResults, List.map_cons, List.map_nil]
      rw [show (300 : ℚ) / ((2 : ℕ) : ℚ) = ((150 : ℤ) : ℚ) by norm_num]
      simp

/-- C7 witness: a record with accumulated time 300 and one accumulated
timestamp 100 averages, at replication 2, to time 150 and timestamp 50. -/
theorem C7_average_floor_division_witness :
    (averageResults
        [("k",
          { name := "a", id := "0", count := 3, time := 300, timestamps := [100],
            error := false, metricsCalculated := [-1, -1, -1, -1], metadata := [] })] 2).lookup
        "k" =
      some
        { name := "a", id := "0", count := 3, time := 150, timestamps := [50],
          error := false, metricsCalculated := [-1, -1, -1, -1], metadata := [] } := by
  have h := C7_average_floor_division.1
    [("k",
      { name := "a", id := "0", count := 3, time := 300, timestamps := [100],
        error := false, metricsCalculated := [-1, -1, -1, -1], metadata := [] })] 2 "k"
    { name := "a", id := "0", count := 3, time := 300, timestamps := [100],
      error := false, metricsCalculated := [-1, -1, -1, -1], metadata := [] }
    (by norm_num) rfl
  rw [h]
  simp only [List.map_cons, List.map_nil]
  rw [show (300 : ℚ) / ((2 : ℕ) : ℚ) = ((150 : ℤ) : ℚ) by norm_num,
    show (100 : ℚ) / ((2 : ℕ) : ℚ) = ((50 : ℤ) : ℚ) by norm_num]
  simp

/-- The combined timestamp list keeps the accumulated record's length, sums
elementwise below the shorter length, and leaves entries at positions past
the incoming list unchanged. -/
theorem combineTimestamps_spec :
    ∀ (a b : List ℚ),
      (combineTimestamps a b).length = a.length ∧
      (∀ i : ℕ, i < min a.length b.length →
        (combineTimestamps a b).getD i 0 = a.getD i 0 + b.getD i 0) ∧
      (∀ i : ℕ, b.length ≤ i → (combineTimestamps a b).getD i 0 = a.getD i 0) := by
  intro a
  induction a with
  | nil =>
      intro b
      refine ⟨by simp [combineTimestamps], ?_, ?_⟩
      · intro i hi
        simp at hi
      · intro i _
        simp [combineTimestamps]
  | cons x a ih =>
      intro b
      cases b with
      | nil =>
          refine ⟨by simp [combineTimestamps], ?_, ?_⟩
          · intro i hi
            simp at hi
          · intro i _
            simp [combineTimestamps]
      | cons y b =>
          have hstep : combineTimestamps (x :: a) (y :: b) = (x + y) :: combineTimestamps a b := by
            simp [combineTimestamps]
          refine ⟨?_, ?_, ?_⟩
          · rw [hstep]
            simp [(ih b).1]
          · intro i hi
            rw [hstep]
            cases i with
            | zero => simp
            | succ n =>
                simp only [List.getD_cons_succ]
                exact (ih b).2.1 n (by
                  simp only [List.length_cons] at hi
                  omega)
          · intro i hi
            rw [hstep]
            cases i with
            | zero => simp at hi
            | succ n =>
                simp only [List.getD_cons_succ]
                exact (ih b).2.2 n (by
                  simp only [List.length_cons] at hi
                  omega)

/-- The merge branch written as a single record update. -/
theorem mergeEntry_eq (e : IBenchmarkResult) (errObj : Option QueryError) (t : ℚ)
    (ts : List ℚ) :
    mergeEntry e errObj t ts =
      { e with
        error := e.error || errObj.isSome
        time := e.time + t
        timestamps := combineTimestamps e.timestamps ts } := by
  cases herr : errObj.isSome <;> simp [mergeEntry, herr]

/-- C10: merging a later iteration's measurement into an existing record
touches only `time` (incremented), `timestamps` (summed elementwise up to the
shorter length, never growing, with entries past the incoming list left
unchanged) and `error` (only ever forced to `true`, never reset);
`count`, `metricsCalculated`, `metadata`, `name` and `id` keep their values
from the iteration that created the record. The second part shows
`executeQueries` indeed routes an existing (name, id) record through this
merge. -/
theorem C10_merge_frame :
    (∀ (e : IBenchmarkResult) (errorObject : Option QueryError) (t : ℚ) (ts : List ℚ),
      (mergeEntry e errorObject t ts).name = e.name ∧
      (mergeEntry e errorObject t ts).id = e.id ∧
      (mergeEntry e errorObject t ts).count = e.count ∧
      (mergeEntry e errorObject t ts).metricsCalculated = e.metricsCalculated ∧
      (mergeEntry e errorObject t ts).metadata = e.metadata ∧
      (mergeEntry e errorObject t ts).time = e.time + t ∧
      (mergeEntry e errorObject t ts).error = (e.error || errorObject.isSome) ∧
      (mergeEntry e errorObject t ts).timestamps.length = e.timestamps.length ∧
      (∀ i : ℕ, i < min e.timestamps.length ts.length →
        (mergeEntry e errorObject t ts).timestamps.getD i 0 =
          e.timestamps.getD i 0 + ts.getD i 0) ∧
      (∀ i : ℕ, ts.length ≤ i →
        (mergeEntry e errorObject t ts).timestamps.getD i 0 = e.timestamps.getD i 0)) ∧
    (∀ (metricAll : IMetricInput → ℚ) (runMetricFirstK : ℕ → IMetricInput → ℚ)
        (data : List (String × IBenchmarkResult)) (name id : String)
        (outcome : Except QueryError QueryOutput) (e : IBenchmarkResult) (metrics : List ℚ),
      data.lookup (name ++ id) = some e →
      computeMetrics metricAll runMetricFirstK (execLocalsOf outcome) = Except.ok metrics →
      executeQueriesStep metricAll runMetricFirstK data name id outcome =
        Except.ok (replaceEntry data (name ++ id)
          (mergeEntry e (execLocalsOf outcome).errorObject (execLocalsOf outcome).time
            (execLocalsOf outcome).timestamps))) := by
  constructor
  · intro e errorObject t ts
    rw [mergeEntry_eq]
    have hspec := combineTimestamps_spec e.timestamps ts
    exact ⟨rfl, rfl, rfl, rfl, rfl, rfl, rfl, hspec.1, hspec.2.1, hspec.2.2⟩
  · intro metricAll runMetricFirstK data name id outcome e metrics hlook hmetrics
    simp only [executeQueriesStep]
    rw [hmetrics, hlook]

/-- C10 witness: a concrete merge (existing record with timestamps
`[1, 2, 3]`, incoming failed measurement with time 50 and timestamps
`[10, 20]`) and a concrete `executeQueries` step that routes an existing
record through the merge. -/
theorem C10_merge_frame_witness :
    (mergeEntry
        { name := "a", id := "0", count := 7, time := 100, timestamps := [1, 2, 3],
          error := false, metricsCalculated := [-1, -1, -1, -1], metadata := [] }
        (some timeoutError) 50 [10, 20]).count = 7 ∧
    (mergeEntry
        { name := "a", id := "0", count := 7, time := 100, timestamps := [1, 2, 3],
          error := false, metricsCalculated := [-1, -1, -1, -1], metadata := [] }
        (some timeoutError) 50 [10, 20]).time = 150 ∧
    (mergeEntry
        { name := "a", id := "0", count := 7, time := 100, timestamps := [1, 2, 3],
          error := false, metricsCalculated := [-1, -1, -1, -1], metadata := [] }
        (some timeoutError) 50 [10, 20]).error = true ∧
    (mergeEntry
        { name := "a", id := "0", count := 7, time := 100, timestamps := [1, 2, 3],
          error := false, metricsCalculated := [-1, -1, -1, -1], metadata := [] }
        (some timeoutError) 50 [10, 20]).timestamps.getD 0 0 = 11 ∧
    (mergeEntry
        { name := "a", id := "0", count := 7, time := 100, timestamps := [1, 2, 3],
          error := false, metricsCalculated := [-1, -1, -1, -1], metadata := [] }
        (some timeoutError) 50 [10, 20]).timestamps.getD 2 0 = 3 ∧
    executeQueriesStep (fun _ => 0) (fun _ _ => 0)
        [("a" ++ "0",
          { name := "a", id := "0", count := 7, time := 100, timestamps := [1, 2, 3],
            error := false, metricsCalculated := [-1, -1, -1, -1], metadata := [] })]
        "a" "0"
        (Except.ok
          { count := 0, time := 200, timestamps := [], trackedTopology := emptyTopology,
            contributingDocuments := [], metadata := [] }) =
      Except.ok (replaceEntry
        [("a" ++ "0",
          { name := "a", id := "0", count := 7, time := 100, timestamps := [1, 2, 3],
            error := false, metricsCalculated := [-1, -1, -1, -1], metadata := [] })]
        ("a" ++ "0")
        (mergeEntry
          { name := "a", id := "0", count := 7, time := 100, timestamps := [1, 2, 3],
            error := false, metricsCalculated := [-1, -1, -1, -1], metadata := [] }
          none 200 [])) := by
  obtain ⟨-, -, hcount, -, -, htime, herror, -, hmin, hpast⟩ := C10_merge_frame.1
    { name := "a", id := "0", count := 7, time := 100, timestamps := [1, 2, 3],
      error := false, metricsCalculated := [-1, -1, -1, -1], metadata := [] }
    (some timeoutError) 50 [10, 20]
  refine ⟨hcount, ?_, ?_, ?_, ?_, ?_⟩
  · rw [htime]
    norm_num
  · rw [herror]
    rfl
  · rw [hmin 0 (by norm_num)]
    norm_num
  · rw [hpast 2 (by norm_num)]
    rfl
  · exact C10_merge_frame.2 (fun _ => 0) (fun _ _ => 0)
      [("a" ++ "0",
        { name := "a", id := "0", count := 7, time := 100, timestamps := [1, 2, 3],
          error := false, metricsCalculated := [-1, -1, -1, -1], metadata := [] })]
      "a" "0"
      (Except.ok
        { count := 0, time := 200, timestamps := [], trackedTopology := emptyTopology,
          contributingDocuments := [], metadata := [] })
      { name := "a", id := "0", count := 7, time := 100, timestamps := [1, 2, 3],
        error := false, metricsCalculated := [-1, -1, -1, -1], metadata := [] }
      [-1, -1, -1, -1] rfl rfl

/-- A parsed JSON value, as far as `loadQueriesMetadataStatic` inspects it:
the loader only ever tests `Array.isArray` and copies values, so non-array
values are opaque leaves. -/
inductive Json where
  | arr : List Json → Json
  | leaf : String → Json

/-- `Array.isArray`. -/
def Json.isArray : Json → Bool
  | Json.arr _ => true
  | Json.leaf _ => false

/-- The field scan of `loadQueriesMetadataStatic` (QueryLoaderFile.ts lines
119-126): `for (const key in parsed) if (Array.isArray(parsed[key])) ...`
overwrites `arrayKey`/`arrayValue` on every array-valued field, so the LAST
array-valued field in iteration order wins. -/
def findArrayField (parsed : List (String × Json)) : Option (String × List Json) :=
  parsed.foldl (fun acc kv =>
    match kv.2 with
    | Json.arr elems => some (kv.1, elems)
    | Json.leaf _ => acc) none

/-- The per-file body of `loadQueriesMetadataStatic` (QueryLoaderFile.ts
lines 114-140): scan for the (last) array-valued field; `!arrayValue ||
!arrayKey` throws only when no array field was found (a set `arrayValue` is
a JS array and arrays are always truthy) or when the array field's key is
the empty string (the one falsy string); otherwise replicate the non-array
fields onto every element of the array, storing the element under the
singularised key `arrayKey.slice(0, -1)`. -/
def loadQueriesMetadataFile (parsed : List (String × Json)) :
    Except String (List (List (String × Json))) :=
  match findArrayField parsed with
  | none => Except.error "queries metadata has no array entry"
  | some (arrayKey, arrayValue) =>
      if arrayKey = "" then Except.error "queries metadata has no array entry"
      else
        Except.ok (arrayValue.map (fun element =>
          (parsed.filter (fun kv => !kv.2.isArray)) ++ [(arrayKey.dropRight 1, element)]))

/-- C6 (counterexample): a metadata file with TWO array-valued fields does
not fail to load — the loader silently succeeds, using the last array-valued
field (`"bs"`). -/
theorem C6_counterexample :
    loadQueriesMetadataFile
        [("as", Json.arr [Json.leaf "x"]), ("bs", Json.arr [Json.leaf "y"])] =
      Except.ok [[("b", Json.leaf "y")]] := by
  rfl

/-- The field scan returns `none` exactly on inputs without array fields. -/
theorem findArrayField_eq_none :
    ∀ (parsed : List (String × Json)),
      findArrayField parsed = none ↔ ∀ kv ∈ parsed, kv.2.isArray = false := by
  have haux : ∀ (parsed : List (String × Json)) (acc : Option (String × List Json)),
      parsed.foldl (fun acc kv =>
          match kv.2 with
          | Json.arr elems => some (kv.1, elems)
          | Json.leaf _ => acc) acc = none ↔
        acc = none ∧ ∀ kv ∈ parsed, kv.2.isArray = false := by
    intro parsed
    induction parsed with
    | nil => intro acc; simp
    | cons kv rest ih =>
        intro acc
        cases hv : kv.2 with
        | arr elems =>
            simp only [List.foldl_cons, hv, ih]
            constructor
            · rintro ⟨h, -⟩
              exact absurd h (by simp)
            · rintro ⟨-, hall⟩
              have := hall kv (by simp)
              rw [hv] at this
              simp [Json.isArray] at this
        | leaf s =>
            simp only [List.foldl_cons, hv, ih]
            constructor
            · rintro ⟨h, hall⟩
              refine ⟨h, ?_⟩
              intro kv2 hmem
              rcases List.mem_cons.mp hmem with h2 | h2
              · rw [h2, hv]
                rfl
              · exact hall kv2 h2
            · rintro ⟨h, hall⟩
              exact ⟨h, fun kv2 hmem => hall kv2 (List.mem_cons_of_mem _ hmem)⟩
  intro parsed
  rw [findArrayField, haux]
  simp

/-- A fold step that ignores array-free suffixes. -/
theorem findArrayField_foldl_frozen :
    ∀ (post : List (String × Json)) (acc : Option (String × List Json)),
      (∀ kv ∈ post, kv.2.isArray = false) →
      post.foldl (fun acc kv =>
          match kv.2 with
          | Json.arr elems => some (kv.1, elems)
          | Json.leaf _ => acc) acc = acc := by
  intro post
  induction post with
  | nil => intro acc _; rfl
  | cons kv rest ih =>
      intro acc hall
      cases hv : kv.2 with
      | arr elems =>
          have := hall kv (by simp)
          rw [hv] at this
          simp [Json.isArray] at this
      | leaf s =>
          simp only [List.foldl_cons, hv]
          exact ih acc (fun kv2 hmem => hall kv2 (List.mem_cons_of_mem _ hmem))

/-- C6 (amended claim): loading a query-metadata file fails exactly when the
file has zero array-valued fields (or the array field's key is the falsy
empty string); when the file has one or MORE array-valued fields, loading
succeeds, replicating the non-array fields over the elements of the LAST
array-valued field in key-iteration order. -/
theorem C6_amended :
    (∀ (parsed : List (String × Json)),
      (∀ kv ∈ parsed, kv.2.isArray = false) →
      loadQueriesMetadataFile parsed = Except.error "queries metadata has no array entry") ∧
    (∀ (pre post : List (String × Json)) (key : String) (elems : List Json),
      (∀ kv ∈ post, kv.2.isArray = false) →
      key ≠ "" →
      loadQueriesMetadataFile (pre ++ (key, Json.arr elems) :: post) =
        Except.ok (elems.map (fun element =>
          ((pre ++ (key, Json.arr elems) :: post).filter (fun kv => !kv.2.isArray)) ++
            [(key.dropRight 1, element)]))) := by
  constructor
  · intro parsed hall
    rw [loadQueriesMetadataFile, (findArrayField_eq_none parsed).mpr hall]
  · intro pre post key elems hpost hkey
    have hfind : findArrayField (pre ++ (key, Json.arr elems) :: post) = some (key, elems) := by
      rw [findArrayField, List.foldl_append, List.foldl_cons]
      exact findArrayField_foldl_frozen post _ hpost
    rw [loadQueriesMetadataFile, hfind]
    simp [hkey]

/-- C6 witness: one scalar field, one empty `post`, array key `"items"`. -/
theorem C6_amended_witness :
    loadQueriesMetadataFile [("t", Json.leaf "v"), ("items", Json.arr [Json.leaf "e"])] =
        Except.ok [[("t", Json.leaf "v"), ("item", Json.leaf "e")]] ∧
      loadQueriesMetadataFile [("t", Json.leaf "v")] =
        Except.error "queries metadata has no array entry" := by
  constructor
  · exact C6_amended.2 [("t", Json.leaf "v")] [] "items" [Json.leaf "e"]
      (by intro kv hmem; simp at hmem) (by intro h; simp at h)
  · exact C6_amended.1 [("t", Json.leaf "v")] (by
      intro kv hmem
      simp only [List.mem_singleton] at hmem
      rw [hmem]
      rfl)

/-- The fields of a flat query result that
`ResultAggregatorComunicaQuerySequence` reads or writes (part_001).
`httpRequests` is `some q` when the field holds a number
(`typeof res.httpRequests === 'number'`) and `none` when it does not (in the
source, typically `undefined`); a non-number flowing into JS arithmetic
behaves as `NaN`. -/
structure IResult where
  name : String
  template : String
  sequence : Option String
  error : Bool
  httpRequests : Option ℚ
deriving DecidableEq

/-- The in-place relabeling applied to every record by `groupResults`
(part_001 lines 17-18): `result.sequence = result.name; result.name =
template`. -/
def relabelResult (result : IResult) : IResult :=
  { result with sequence := some result.name, name := result.template }

/-- The bucket update of `groupResults` (part_001 lines 19-22): create the
bucket on first sight of the template, then push the record. JS records are
modelled as association lists in key insertion order. -/
def addToGroups (templates : List (String × List IResult)) (template : String)
    (result : IResult) : List (String × List IResult) :=
  if (templates.lookup template).isSome then
    templates.map (fun kv => if kv.1 = template then (kv.1, kv.2 ++ [result]) else kv)
  else
    templates ++ [(template, [result])]

/-- `ResultAggregatorComunicaQuerySequence.groupResults` (part_001 lines
13-25). -/
def groupResults (results : List IResult) : List (String × List IResult) :=
  results.foldl (fun templates result =>
    addToGroups templates result.template (relabelResult result)) []

/-- Lookup after updating the bucket of key `t` appends to that bucket. -/
theorem lookup_map_update (t : String) (r : IResult) :
    ∀ (acc : List (String × List IResult)),
      (acc.map (fun kv => if kv.1 = t then (kv.1, kv.2 ++ [r]) else kv)).lookup t =
        (acc.lookup t).map (fun g => g ++ [r]) := by
  intro acc
  induction acc with
  | nil => simp
  | cons kv rest ih =>
      obtain ⟨k, v⟩ := kv
      rw [List.map_cons]
      by_cases h : k = t
      · subst h
        rw [if_pos rfl, List.lookup_cons, List.lookup_cons]
        simp
      · rw [if_neg h, List.lookup_cons, List.lookup_cons]
        have hbeq : (t == k) = false := beq_eq_false_iff_ne.mpr (fun hh => h hh.symm)
        simp [hbeq, ih]

/-- Updating the bucket of key `t` leaves every other lookup unchanged. -/
theorem lookup_map_update_other (t tOther : String) (hne : tOther ≠ t) (r : IResult) :
    ∀ (acc : List (String × List IResult)),
      (acc.map (fun kv => if kv.1 = t then (kv.1, kv.2 ++ [r]) else kv)).lookup tOther =
        acc.lookup tOther := by
  intro acc
  induction acc with
  | nil => simp
  | cons kv rest ih =>
      obtain ⟨k, v⟩ := kv
      rw [List.map_cons]
      by_cases h : k = t
      · subst h
        rw [if_pos rfl, List.lookup_cons, List.lookup_cons]
        have hbeq : (tOther == k) = false := beq_eq_false_iff_ne.mpr hne
        simp [hbeq, ih]
      · rw [if_neg h, List.lookup_cons, List.lookup_cons]
        by_cases h2 : tOther = k
        · subst h2
          simp
        · have hbeq : (tOther == k) = false := beq_eq_false_iff_ne.mpr h2
          simp [hbeq, ih]

/-- Appending one fresh entry behind a list in which its key is absent. -/
theorem lookup_append_single (t : String) (entry : String × List IResult) :
    ∀ (acc : List (String × List IResult)),
      acc.lookup t = none → (acc ++ [entry]).lookup t = List.lookup t [entry] := by
  intro acc
  induction acc with
  | nil => intro _; rfl
  | cons kv rest ih =>
      obtain ⟨k, v⟩ := kv
      intro hnone
      by_cases h : t = k
      · subst h
        simp [List.lookup] at hnone
      · have hbeq : (t == k) = false := beq_eq_false_iff_ne.mpr h
        simp only [List.lookup, hbeq] at hnone
        simp only [List.cons_append, List.lookup, hbeq]
        exact ih hnone

/-- Appending a fresh entry with a different key changes nothing for `t`. -/
theorem lookup_append_single_other (t tNew : String) (hne : t ≠ tNew)
    (g : List IResult) :
    ∀ (acc : List (String × List IResult)),
      (acc ++ [(tNew, g)]).lookup t = acc.lookup t := by
  intro acc
  induction acc with
  | nil =>
      have hbeq : (t == tNew) = false := beq_eq_false_iff_ne.mpr hne
      simp [List.lookup, hbeq]
  | cons kv rest ih =>
      obtain ⟨k, v⟩ := kv
      by_cases h : t = k
      · subst h
        simp [List.lookup]
      · have hbeq : (t == k) = false := beq_eq_false_iff_ne.mpr h
        simp only [List.cons_append, List.lookup, hbeq]
        exact ih

/-- The bucket of `t` after `addToGroups _ t r` holds the previous bucket
(empty on first sight) with `r` pushed at the end. -/
theorem lookup_addToGroups_self (acc : List (String × List IResult)) (t : String)
    (r : IResult) :
    (addToGroups acc t r).lookup t = some (((acc.lookup t).getD []) ++ [r]) := by
  rw [addToGroups]
  cases hl : acc.lookup t with
  | some g =>
      rw [if_pos (by simp [hl]), lookup_map_update t r acc, hl]
      rfl
  | none =>
      rw [if_neg (by simp [hl]), lookup_append_single t (t, [r]) acc hl]
      simp [List.lookup]

/-- `addToGroups` on key `t` leaves every other key's bucket unchanged. -/
theorem lookup_addToGroups_other (acc : List (String × List IResult)) (t tOther : String)
    (hne : tOther ≠ t) (r : IResult) :
    (addToGroups acc t r).lookup tOther = acc.lookup tOther := by
  rw [addToGroups]
  by_cases h : (acc.lookup t).isSome
  · rw [if_pos h]
    exact lookup_map_update_other t tOther hne r acc
  · rw [if_neg h]
    exact lookup_append_single_other tOther t hne [r] acc

/-- The bucket update preserves the key list. -/
theorem keys_map_update (t : String) (r : IResult) :
    ∀ (acc : List (String × List IResult)),
      ((acc.map (fun kv => if kv.1 = t then (kv.1, kv.2 ++ [r]) else kv)).map Prod.fst) =
        acc.map Prod.fst := by
  intro acc
  induction acc with
  | nil => rfl
  | cons kv rest ih =>
      by_cases h : kv.1 = t <;> simp [h, ih]

/-- A key looks up to `none` exactly when it is absent from the key list. -/
theorem lookup_eq_none_iff_keys (t : String) :
    ∀ (acc : List (String × List IResult)),
      acc.lookup t = none ↔ t ∉ acc.map Prod.fst := by
  intro acc
  induction acc with
  | nil => simp
  | cons kv rest ih =>
      obtain ⟨k, v⟩ := kv
      rw [List.lookup_cons]
      by_cases h : t = k
      · subst h
        simp
      · have hbeq : (t == k) = false := beq_eq_false_iff_ne.mpr h
        simp [hbeq, ih, h]

/-- `addToGroups` keeps the key list duplicate-free. -/
theorem keys_nodup_addToGroups (acc : List (String × List IResult)) (t : String)
    (r : IResult) (hnd : (acc.map Prod.fst).Nodup) :
    ((addToGroups acc t r).map Prod.fst).Nodup := by
  rw [addToGroups]
  by_cases h : (acc.lookup t).isSome
  · rw [if_pos h, keys_map_update]
    exact hnd
  · rw [if_neg h, List.map_append]
    have hnone : acc.lookup t = none := by
      cases hl : acc.lookup t with
      | none => rfl
      | some g => rw [hl] at h; simp at h
    have hnotmem : t ∉ acc.map Prod.fst := (lookup_eq_none_iff_keys t acc).mp hnone
    rw [List.nodup_append]
    refine ⟨hnd, List.nodup_singleton t, ?_⟩
    intro x hx hx2
    simp only [List.map_cons, List.map_nil, List.mem_singleton] at hx2
    rw [hx2] at hx
    exact hnotmem hx

/-- Combining an existing (optional) bucket with the records appended to it
behind it. -/
def mergeGroup : Option (List IResult) → List IResult → Option (List IResult)
  | some g, l => some (g ++ l)
  | none, [] => none
  | none, l => some l

/-- The grouping fold, bucket by bucket: after folding, the bucket of `t`
holds the initial bucket (if any) followed by the relabeled records whose
template is `t`, in input order. -/
theorem groupResults_foldl_lookup (t : String) :
    ∀ (results : List IResult) (acc : List (String × List IResult)),
      (results.foldl (fun templates result =>
          addToGroups templates result.template (relabelResult result)) acc).lookup t =
        mergeGroup (acc.lookup t)
          ((results.filter (fun r => r.template == t)).map relabelResult) := by
  intro results
  induction results with
  | nil =>
      intro acc
      cases h : acc.lookup t <;> simp [mergeGroup, h]
  | cons r rest ih =>
      intro acc
      rw [List.foldl_cons, ih (addToGroups acc r.template (relabelResult r)),
        List.filter_cons]
      by_cases ht : r.template = t
      · have hbeq : (r.template == t) = true := by simpa using ht
        rw [hbeq]
        simp only [List.map_cons]
        rw [ht, lookup_addToGroups_self]
        cases hl : acc.lookup t with
        | some g => simp [mergeGroup, hl]
        | none => simp [mergeGroup, hl]
      · have hbeq : (r.template == t) = false := beq_eq_false_iff_ne.mpr ht
        rw [hbeq]
        simp only [Bool.false_eq_true, if_false]
        rw [lookup_addToGroups_other acc r.template t (fun hh => ht hh.symm)]

/-- The grouping fold keeps keys duplicate-free. -/
theorem groupResults_foldl_keys_nodup :
    ∀ (results : List IResult) (acc : List (String × List IResult)),
      (acc.map Prod.fst).Nodup →
      ((results.foldl (fun templates result =>
          addToGroups templates result.template (relabelResult result)) acc).map
          Prod.fst).Nodup := by
  intro results
  induction results with
  | nil => intro acc h; exact h
  | cons r rest ih =>
      intro acc h
      rw [List.foldl_cons]
      exact ih _ (keys_nodup_addToGroups acc r.template (relabelResult r) h)

/-- C9: `groupResults` yields exactly one group per distinct template name
(the key list of the produced record is duplicate-free), and the group of a
template `t` holds precisely the records whose template is `t`, in input
order, each relabeled so that `sequence` is the record's original `name` and
`name` is the template; on records with template `"T1"` and names
`"q0"`, `"q1"` it produces the single group `"T1"` with both records so
relabeled. -/
theorem C9_group_results_by_template :
    (∀ results : List IResult, ((groupResults results).map Prod.fst).Nodup) ∧
    (∀ (results : List IResult) (t : String),
      (groupResults results).lookup t =
        if (results.filter (fun r => r.template == t)).isEmpty then none
        else
          some ((results.filter (fun r => r.template == t)).map (fun result =>
            { result with sequence := some result.name, name := result.template }))) ∧
    groupResults
        [{ name := "q0", template := "T1", sequence := none, error := false,
           httpRequests := none },
         { name := "q1", template := "T1", sequence := none, error := false,
           httpRequests := none }] =
      [("T1",
        [{ name := "T1", template := "T1", sequence := some "q0", error := false,
           httpRequests := none },
         { name := "T1", template := "T1", sequence := some "q1", error := false,
           httpRequests := none }])] := by
  refine ⟨?_, ?_, ?_⟩
  · intro results
    exact groupResults_foldl_keys_nodup results [] (by simp)
  · intro results t
    rw [groupResults, groupResults_foldl_lookup t results []]
    cases hfil : results.filter (fun r => r.template == t) with
    | nil => simp [mergeGroup]
    | cons r rest =>
        simp only [List.lookup_nil, List.map_cons, mergeGroup, List.isEmpty_cons,
          Bool.false_eq_true, if_false]
        rfl
  · rfl

/-- A JS value that may not be a number, used in arithmetic: a non-number
(`undefined`) behaves as `NaN`. -/
def jnumOfOpt : Option ℚ → JNum
  | some q => JNum.num q
  | none => JNum.nan

/-- The running accumulator of the statistics loop of `aggregateResults`
(part_001 lines 50-53). -/
structure HttpFold where
  requestsSum : ℚ
  requestsMax : ℚ
  requestsMin : ℚ
  successfulExecutions : ℕ
deriving DecidableEq

/-- One iteration of the statistics loop (part_001 lines 54-60): on the
first counted member the running sum/max/min are seeded with its value,
afterwards they accumulate. -/
def httpFoldStep (acc : HttpFold) (result : IResult) : HttpFold :=
  { requestsSum :=
      if acc.successfulExecutions > 0 then acc.requestsSum + result.httpRequests.getD 0
      else result.httpRequests.getD 0
    requestsMax :=
      if acc.successfulExecutions > 0 then max acc.requestsMax (result.httpRequests.getD 0)
      else result.httpRequests.getD 0
    requestsMin :=
      if acc.successfulExecutions > 0 then min acc.requestsMin (result.httpRequests.getD 0)
      else result.httpRequests.getD 0
    successfulExecutions := acc.successfulExecutions + 1 }

/-- The statistics loop over the filtered members (part_001 line 54):
`resultGroup.filter(res => !res.error && typeof res.httpRequests === 'number')`. -/
def httpFold (resultGroup : List IResult) : HttpFold :=
  (resultGroup.filter (fun res => !res.error && res.httpRequests.isSome)).foldl httpFoldStep
    { requestsSum := 0, requestsMax := 0, requestsMin := 0, successfulExecutions := 0 }

/-- The mean written into the aggregate record (part_001 line 62). -/
def httpMean (resultGroup : List IResult) : ℚ :=
  (httpFold resultGroup).requestsSum / ((httpFold resultGroup).successfulExecutions : ℚ)

/-- One iteration of the standard-deviation loop (part_001 lines 67-71):
note it skips only members with the error flag — it does NOT re-check that
`httpRequests` is a number, so a non-number value enters the subtraction
and produces `NaN`. -/
def stdStep (mean : ℚ) (s : JNum) (r : IResult) : JNum :=
  if r.error then s
  else JNum.add s (JNum.sq (JNum.sub (jnumOfOpt r.httpRequests) (JNum.num mean)))

/-- The radicand of the stored standard deviation (part_001 lines 65-73):
the squared-deviation sum over non-error members divided by
`successfulExecutions`. The source finally stores `Math.sqrt` of this value
into `httpRequestsStd`; the embedding keeps the radicand so that it stays
executable, and the theorems state the square root explicitly. -/
def httpStdSq (resultGroup : List IResult) : JNum :=
  JNum.div (resultGroup.foldl (stdStep (httpMean resultGroup)) (JNum.num 0))
    (JNum.num ((httpFold resultGroup).successfulExecutions : ℚ))

/-- The four `httpRequests` statistics attached to a group's aggregate
record when at least one member is counted (part_001 lines 61-74);
`none` models the `successfulExecutions = 0` case in which no statistics
are attached. -/
structure HttpStats where
  httpRequests : ℚ
  httpRequestsMax : ℚ
  httpRequestsMin : ℚ
  httpRequestsStdSq : JNum
deriving DecidableEq

/-- The per-group statistics block of
`ResultAggregatorComunicaQuerySequence.aggregateResults` (part_001 lines
49-75). -/
def aggregateHttpStats (resultGroup : List IResult) : Option HttpStats :=
  if (httpFold resultGroup).successfulExecutions > 0 then
    some
      { httpRequests := httpMean resultGroup
        httpRequestsMax := (httpFold resultGroup).requestsMax
        httpRequestsMin := (httpFold resultGroup).requestsMin
        httpRequestsStdSq := httpStdSq resultGroup }
  else
    none

/-- `NaN` absorbs on the right of a JS addition. -/
theorem JNum.add_nan (x : JNum) : JNum.add x JNum.nan = JNum.nan := by
  cases x <;> rfl

/-- Once the squared-deviation sum is `NaN` it stays `NaN`. -/
theorem stdStep_foldl_nan (mean : ℚ) :
    ∀ (l : List IResult), l.foldl (stdStep mean) JNum.nan = JNum.nan := by
  intro l
  induction l with
  | nil => rfl
  | cons r rest ih =>
      rw [List.foldl_cons]
      have hstep : stdStep mean JNum.nan r = JNum.nan := by
        rw [stdStep]
        cases hre : r.error <;> simp [JNum.add]
      rw [hstep, ih]

/-- C4 (counterexample): a group of two error-free members, one with
`httpRequests = 10` and one whose `httpRequests` is not a number. The
non-number member is excluded from mean, min and max, but NOT from the
standard deviation: its `NaN` enters the squared-deviation sum, so the
stored radicand (and hence the standard deviation) is `NaN` — whereas
dropping the member entirely yields radicand `0`. -/
theorem C4_counterexample :
    aggregateHttpStats
        [{ name := "a", template := "T", sequence := none, error := false,
           httpRequests := some 10 },
         { name := "b", template := "T", sequence := none, error := false,
           httpRequests := none }] =
      some
        { httpRequests := 10 / 1, httpRequestsMax := 10, httpRequestsMin := 10,
          httpRequestsStdSq := JNum.nan } ∧
    aggregateHttpStats
        [{ name := "a", template := "T", sequence := none, error := false,
           httpRequests := some 10 }] =
      some
        { httpRequests := 10 / 1, httpRequestsMax := 10, httpRequestsMin := 10,
          httpRequestsStdSq := JNum.num 0 } ∧
    JNum.nan ≠ JNum.num 0 := by
  refine ⟨?_, ?_, by simp⟩ <;>
    norm_num [aggregateHttpStats, httpFold, httpFoldStep, httpMean, httpStdSq, stdStep,
      jnumOfOpt, JNum.add, JNum.sub, JNum.sq, JNum.mul, JNum.div]

/-- Dropping one member that fails the counting filter leaves the counting
fold unchanged. -/
theorem httpFold_drop (g1 g2 : List IResult) (r : IResult)
    (hfail : (!r.error && r.httpRequests.isSome) = false) :
    httpFold (g1 ++ r :: g2) = httpFold (g1 ++ g2) := by
  rw [httpFold, httpFold, List.filter_append, List.filter_append, List.filter_cons, hfail]
  simp

/-- Dropping one member with the error flag leaves the squared-deviation
fold unchanged. -/
theorem stdStep_foldl_drop_error (mean : ℚ) (g1 g2 : List IResult) (r : IResult)
    (herr : r.error = true) (init : JNum) :
    (g1 ++ r :: g2).foldl (stdStep mean) init = (g1 ++ g2).foldl (stdStep mean) init := by
  rw [List.foldl_append, List.foldl_append, List.foldl_cons]
  have : stdStep mean (g1.foldl (stdStep mean) init) r = g1.foldl (stdStep mean) init := by
    rw [stdStep, if_pos herr]
  rw [this]

/-- C4 (amended claim): a result whose `httpRequests` field is not a number
is excluded from the mean, min and max statistics of its group independently
of its error flag; but it is excluded from the standard deviation only when
its error flag is set — an error-free member with non-number `httpRequests`
enters the squared-deviation sum and turns the stored standard deviation
into `NaN`. -/
theorem C4_amended :
    (∀ (g1 g2 : List IResult) (r : IResult),
      r.httpRequests = none →
      (aggregateHttpStats (g1 ++ r :: g2)).map
          (fun s => (s.httpRequests, s.httpRequestsMax, s.httpRequestsMin)) =
        (aggregateHttpStats (g1 ++ g2)).map
          (fun s => (s.httpRequests, s.httpRequestsMax, s.httpRequestsMin))) ∧
    (∀ (g1 g2 : List IResult) (r : IResult) (s : HttpStats),
      r.error = false →
      r.httpRequests = none →
      aggregateHttpStats (g1 ++ r :: g2) = some s →
      s.httpRequestsStdSq = JNum.nan) ∧
    (∀ (g1 g2 : List IResult) (r : IResult),
      r.error = true →
      aggregateHttpStats (g1 ++ r :: g2) = aggregateHttpStats (g1 ++ g2)) := by
  refine ⟨?_, ?_, ?_⟩
  · intro g1 g2 r hr
    have hfail : (!r.error && r.httpRequests.isSome) = false := by
      rw [hr]
      simp
    have hfold := httpFold_drop g1 g2 r hfail
    rw [aggregateHttpStats, aggregateHttpStats, hfold, httpMean, httpMean, hfold]
    by_cases hpos : (httpFold (g1 ++ g2)).successfulExecutions > 0
    · rw [if_pos hpos, if_pos hpos]
      simp
    · rw [if_neg hpos, if_neg hpos]
  · intro g1 g2 r s herr hr hsome
    rw [aggregateHttpStats] at hsome
    by_cases hpos : (httpFold (g1 ++ r :: g2)).successfulExecutions > 0
    · rw [if_pos hpos] at hsome
      have hs := (Option.some.injEq _ _).mp hsome
      have hstd : s.httpRequestsStdSq = httpStdSq (g1 ++ r :: g2) := by
        rw [← hs]
      rw [hstd, httpStdSq]
      have hnan : (g1 ++ r :: g2).foldl (stdStep (httpMean (g1 ++ r :: g2)))
          (JNum.num 0) = JNum.nan := by
        rw [List.foldl_append, List.foldl_cons]
        have hstep : stdStep (httpMean (g1 ++ r :: g2))
            (g1.foldl (stdStep (httpMean (g1 ++ r :: g2))) (JNum.num 0)) r = JNum.nan := by
          rw [stdStep, if_neg (by rw [herr]; exact Bool.false_ne_true), hr]
          rw [show jnumOfOpt none = JNum.nan from rfl]
          rw [show JNum.sub JNum.nan (JNum.num (httpMean (g1 ++ r :: g2))) = JNum.nan
            from rfl]
          rw [show JNum.sq JNum.nan = JNum.nan from rfl]
          exact JNum.add_nan _
        rw [hstep, stdStep_foldl_nan]
      rw [hnan]
      rfl
    · rw [if_neg hpos] at hsome
      exact absurd hsome (by simp)
  · intro g1 g2 r herr
    have hfail : (!r.error && r.httpRequests.isSome) = false := by
      rw [herr]
      simp
    have hfold := httpFold_drop g1 g2 r hfail
    have hmean : httpMean (g1 ++ r :: g2) = httpMean (g1 ++ g2) := by
      rw [httpMean, httpMean, hfold]
    have hstd : httpStdSq (g1 ++ r :: g2) = httpStdSq (g1 ++ g2) := by
      rw [httpStdSq, httpStdSq, hfold, hmean,
        stdStep_foldl_drop_error (httpMean (g1 ++ g2)) g1 g2 r herr]
    rw [aggregateHttpStats, aggregateHttpStats, hfold, hmean, hstd]

/-- C4 witness: the amended claim instantiated on concrete two-member groups
(error-free non-number member for the first two parts, error-flagged member
for the third). -/
theorem C4_amended_witness :
    (aggregateHttpStats
        [{ name := "a", template := "T", sequence := none, error := false,
           httpRequests := some 10 },
         { name := "b", template := "T", sequence := none, error := false,
           httpRequests := none }]).map
        (fun s => (s.httpRequests, s.httpRequestsMax, s.httpRequestsMin)) =
      (aggregateHttpStats
        [{ name := "a", template := "T", sequence := none, error := false,
           httpRequests := some 10 }]).map
        (fun s => (s.httpRequests, s.httpRequestsMax, s.httpRequestsMin)) ∧
    (aggregateHttpStats
        [{ name := "a", template := "T", sequence := none, error := false,
           httpRequests := some 10 },
         { name := "b", template := "T", sequence := none, error := false,
           httpRequests := none }]).map (fun s => s.httpRequestsStdSq) = some JNum.nan ∧
    aggregateHttpStats
        [{ name := "a", template := "T", sequence := none, error := false,
           httpRequests := some 10 },
         { name := "c", template := "T", sequence := none, error := true,
           httpRequests := none }] =
      aggregateHttpStats
        [{ name := "a", template := "T", sequence := none, error := false,
           httpRequests := some 10 }] := by
  refine ⟨?_, ?_, ?_⟩
  · exact C4_amended.1 [⟨"a", "T", none, false, some 10⟩] []
      ⟨"b", "T", none, false, none⟩ rfl
  · have hagg : aggregateHttpStats
        [{ name := "a", template := "T", sequence := none, error := false,
           httpRequests := some 10 },
         { name := "b", template := "T", sequence := none, error := false,
           httpRequests := none }] =
        some
          { httpRequests := 10 / 1, httpRequestsMax := 10, httpRequestsMin := 10,
            httpRequestsStdSq := JNum.nan } := by
      norm_num [aggregateHttpStats, httpFold, httpFoldStep, httpMean, httpStdSq, stdStep,
        jnumOfOpt, JNum.add, JNum.sub, JNum.sq, JNum.mul, JNum.div]
    have hstd := C4_amended.2.1 [⟨"a", "T", none, false, some 10⟩] []
      ⟨"b", "T", none, false, none⟩
      { httpRequests := 10 / 1, httpRequestsMax := 10, httpRequestsMin := 10,
        httpRequestsStdSq := JNum.nan } rfl rfl hagg
    rw [hagg]
    simpa using hstd
  · exact C4_amended.2.2 [⟨"a", "T", none, false, some 10⟩] []
      ⟨"c", "T", none, true, none⟩ rfl

/-- Specification-side view for the aggregation claims: the `httpRequests`
values of a group's error-free members, in order. -/
def specHttpValues (g : List IResult) : List ℚ :=
  (g.filter (fun r => !r.error)).filterMap (fun r => r.httpRequests)

/-- When every error-free member carries a numeric `httpRequests`, the
source's counting filter coincides with filtering on the error flag alone. -/
theorem filter_count_eq_filter_error (g : List IResult)
    (h : ∀ r ∈ g, r.error = false → r.httpRequests.isSome = true) :
    g.filter (fun r => !r.error && r.httpRequests.isSome) = g.filter (fun r => !r.error) := by
  apply List.filter_congr
  intro r hr
  cases hre : r.error with
  | false => simp [h r hr hre]
  | true => simp

/-- Extracting all-numeric `httpRequests` values is just a map. -/
theorem filterMap_eq_map_getD (l : List IResult)
    (h : ∀ r ∈ l, r.httpRequests.isSome = true) :
    l.filterMap (fun r => r.httpRequests) = l.map (fun r => r.httpRequests.getD 0) := by
  induction l with
  | nil => rfl
  | cons r rest ih =>
      obtain ⟨q, hq⟩ := Option.isSome_iff_exists.mp (h r (by simp))
      rw [List.filterMap_cons, List.map_cons, hq]
      rw [ih (fun r2 hr2 => h r2 (List.mem_cons_of_mem _ hr2))]
      rfl

/-- The counting loop from a seeded accumulator: sums, folded max/min and a
running count. -/
theorem httpFold_loop (l : List IResult) :
    ∀ acc : HttpFold, 0 < acc.successfulExecutions →
      l.foldl httpFoldStep acc =
        { requestsSum := acc.requestsSum + (l.map (fun r => r.httpRequests.getD 0)).sum
          requestsMax := (l.map (fun r => r.httpRequests.getD 0)).foldl max acc.requestsMax
          requestsMin := (l.map (fun r => r.httpRequests.getD 0)).foldl min acc.requestsMin
          successfulExecutions := acc.successfulExecutions + l.length } := by
  induction l with
  | nil => intro acc _; simp
  | cons r rest ih =>
      intro acc h
      rw [List.foldl_cons]
      have hstep : httpFoldStep acc r =
          { requestsSum := acc.requestsSum + r.httpRequests.getD 0
            requestsMax := max acc.requestsMax (r.httpRequests.getD 0)
            requestsMin := min acc.requestsMin (r.httpRequests.getD 0)
            successfulExecutions := acc.successfulExecutions + 1 } := by
        rw [httpFoldStep]
        simp [h]
      rw [hstep, ih _ (by simp)]
      simp only [List.map_cons, List.sum_cons, List.foldl_cons, List.length_cons,
        HttpFold.mk.injEq]
      exact ⟨by ring, trivial, trivial, by omega⟩

/-- The seed is a lower bound of a max fold. -/
theorem le_foldl_max_init (l : List ℚ) : ∀ a : ℚ, a ≤ l.foldl max a := by
  induction l with
  | nil => intro a; exact le_refl a
  | cons b l ih =>
      intro a
      exact le_trans (le_max_left a b) (ih (max a b))

/-- A max fold lands on its seed or on a list member. -/
theorem foldl_max_mem (l : List ℚ) : ∀ a : ℚ, l.foldl max a ∈ a :: l := by
  induction l with
  | nil => intro a; simp
  | cons b l ih =>
      intro a
      rw [List.foldl_cons]
      rcases List.mem_cons.mp (ih (max a b)) with h | h
      · rcases max_choice a b with h2 | h2 <;> rw [h, h2] <;> simp
      · simp [List.mem_cons_of_mem, h]
  
/-- A max fold bounds its seed and every member from above. -/
theorem mem_le_foldl_max (l : List ℚ) : ∀ (a x : ℚ), x ∈ a :: l → x ≤ l.foldl max a := by
  induction l with
  | nil =>
      intro a x hx
      simp only [List.mem_singleton] at hx
      rw [hx]
      exact le_refl a
  | cons b l ih =>
      intro a x hx
      rw [List.foldl_cons]
      rcases List.mem_cons.mp hx with h | h
      · rw [h]
        exact le_trans (le_max_left a b) (le_foldl_max_init l (max a b))
      · rcases List.mem_cons.mp h with h2 | h2
        · rw [h2]
          exact le_trans (le_max_right a b) (le_foldl_max_init l (max a b))
        · exact ih (max a b) x (List.mem_cons_of_mem _ h2)

/-- The seed is an upper bound of a min fold. -/
theorem foldl_min_le_init (l : List ℚ) : ∀ a : ℚ, l.foldl min a ≤ a := by
  induction l with
  | nil => intro a; exact le_refl a
  | cons b l ih =>
      intro a
      exact le_trans (ih (min a b)) (min_le_left a b)

/-- A min fold lands on its seed or on a list member. -/
theorem foldl_min_mem (l : List ℚ) : ∀ a : ℚ, l.foldl min a ∈ a :: l := by
  induction l with
  | nil => intro a; simp
  | cons b l ih =>
      intro a
      rw [List.foldl_cons]
      rcases List.mem_cons.mp (ih (min a b)) with h | h
      · rcases min_choice a b with h2 | h2 <;> rw [h, h2] <;> simp
      · simp [List.mem_cons_of_mem, h]

/-- A min fold bounds its seed and every member from below. -/
theorem foldl_min_le_mem (l : List ℚ) : ∀ (a x : ℚ), x ∈ a :: l → l.foldl min a ≤ x := by
  induction l with
  | nil =>
      intro a x hx
      simp only [List.mem_singleton] at hx
      rw [hx]
      exact le_refl a
  | cons b l ih =>
      intro a x hx
      rw [List.foldl_cons]
      rcases List.mem_cons.mp hx with h | h
      · rw [h]
        exact le_trans (foldl_min_le_init l (min a b)) (min_le_left a b)
      · rcases List.mem_cons.mp h with h2 | h2
        · rw [h2]
          exact le_trans (foldl_min_le_init l (min a b)) (min_le_right a b)
        · exact ih (min a b) x (List.mem_cons_of_mem _ h2)

/-- The squared-deviation loop over a group of all-numeric error-free
members is a plain finite sum. -/
theorem stdStep_foldl_sum (m : ℚ) :
    ∀ (g : List IResult) (acc : ℚ),
      (∀ r ∈ g, r.error = false → r.httpRequests.isSome = true) →
      g.foldl (stdStep m) (JNum.num acc) =
        JNum.num (acc + ((specHttpValues g).map (fun v => (v - m) ^ 2)).sum) := by
  intro g
  induction g with
  | nil =>
      intro acc _
      simp [specHttpValues]
  | cons r rest ih =>
      intro acc h
      rw [List.foldl_cons]
      cases hre : r.error with
      | true =>
          have hspec : specHttpValues (r :: rest) = specHttpValues rest := by
            rw [specHttpValues, specHttpValues, List.filter_cons, hre]
            simp
          rw [show stdStep m (JNum.num acc) r = JNum.num acc from by
              rw [stdStep, if_pos hre],
            ih acc (fun r2 hr2 => h r2 (List.mem_cons_of_mem _ hr2)), hspec]
      | false =>
          obtain ⟨q, hq⟩ := Option.isSome_iff_exists.mp (h r (by simp) hre)
          have hspec : specHttpValues (r :: rest) = q :: specHttpValues rest := by
            rw [specHttpValues, specHttpValues, List.filter_cons, hre]
            simp [List.filterMap_cons, hq]
          have hstep : stdStep m (JNum.num acc) r = JNum.num (acc + (q - m) ^ 2) := by
            rw [stdStep, if_neg (by rw [hre]; exact Bool.false_ne_true), hq]
            rw [show jnumOfOpt (some q) = JNum.num q from rfl]
            rw [show JNum.sub (JNum.num q) (JNum.num m) = JNum.num (q - m) from rfl]
            rw [show JNum.sq (JNum.num (q - m)) = JNum.num ((q - m) * (q - m)) from rfl]
            rw [show JNum.add (JNum.num acc) (JNum.num ((q - m) * (q - m))) =
              JNum.num (acc + (q - m) * (q - m)) from rfl]
            congr 1
            ring
          rw [hstep, ih _ (fun r2 hr2 => h r2 (List.mem_cons_of_mem _ hr2)), hspec]
          rw [List.map_cons, List.sum_cons]
          congr 1
          ring

/-- The full counting loop on a group whose error-free members are
all-numeric: sum, first-seeded max/min folds, and the member count. -/
theorem httpFold_eq (g : List IResult)
    (h : ∀ r ∈ g, r.error = false → r.httpRequests.isSome = true)
    (v0 : ℚ) (vrest : List ℚ) (hvals : specHttpValues g = v0 :: vrest) :
    httpFold g =
      { requestsSum := (v0 :: vrest).sum
        requestsMax := vrest.foldl max v0
        requestsMin := vrest.foldl min v0
        successfulExecutions := (v0 :: vrest).length } := by
  have hfil := filter_count_eq_filter_error g h
  have hmem : ∀ r ∈ g.filter (fun r => !r.error), r.httpRequests.isSome = true := by
    intro r hr
    have hmem2 := List.mem_filter.mp hr
    exact h r hmem2.1 (by simpa using hmem2.2)
  have hvals2 : specHttpValues g =
      (g.filter (fun r => !r.error)).map (fun r => r.httpRequests.getD 0) := by
    rw [specHttpValues, filterMap_eq_map_getD _ hmem]
  rw [httpFold, hfil]
  cases hfl : g.filter (fun r => !r.error) with
  | nil =>
      rw [hfl] at hvals2
      rw [hvals2] at hvals
      exact absurd hvals (by simp)
  | cons r0 rl =>
      rw [hfl, List.map_cons] at hvals2
      rw [hvals2] at hvals
      injection hvals with h1 h2
      rw [List.foldl_cons]
      have hstep : httpFoldStep
          { requestsSum := 0, requestsMax := 0, requestsMin := 0, successfulExecutions := 0 }
          r0 =
          { requestsSum := r0.httpRequests.getD 0, requestsMax := r0.httpRequests.getD 0,
            requestsMin := r0.httpRequests.getD 0, successfulExecutions := 1 } := by
        rw [httpFoldStep]
        simp
      rw [hstep, httpFold_loop rl _ (by simp), h1, h2]
      have hlen : rl.length = vrest.length := by rw [← h2, List.length_map]
      simp only [List.sum_cons, List.length_cons, HttpFold.mk.injEq]
      exact ⟨trivial, trivial, trivial, by omega⟩

/-- C5: over a group whose error-free members all carry numeric
`httpRequests` (the regime the claim describes) and at least one such member
exists, the aggregate mean is the sum of the error-free members' values
divided by their count, max and min are the maximum and minimum of those
values, and the stored standard deviation is the population standard
deviation: the square root of the squared-deviation sum divided by the
member count (not count minus one), computed against that same mean. On the
concrete group with values `[10, 20, error]` this gives mean 15, max 20,
min 10 and standard deviation `√25 = 5`. -/
theorem C5_population_statistics :
    (∀ (g : List IResult),
      (∀ r ∈ g, r.error = false → r.httpRequests.isSome = true) →
      specHttpValues g ≠ [] →
      ∃ s, aggregateHttpStats g = some s ∧
        s.httpRequests = (specHttpValues g).sum / ((specHttpValues g).length : ℚ) ∧
        s.httpRequestsMax ∈ specHttpValues g ∧
        (∀ v ∈ specHttpValues g, v ≤ s.httpRequestsMax) ∧
        s.httpRequestsMin ∈ specHttpValues g ∧
        (∀ v ∈ specHttpValues g, s.httpRequestsMin ≤ v) ∧
        s.httpRequestsStdSq =
          JNum.num
            (((specHttpValues g).map
                (fun v =>
                  (v - (specHttpValues g).sum / ((specHttpValues g).length : ℚ)) ^ 2)).sum /
              ((specHttpValues g).length : ℚ))) ∧
    (aggregateHttpStats
        [{ name := "q0", template := "T", sequence := none, error := false,
           httpRequests := some 10 },
         { name := "q1", template := "T", sequence := none, error := false,
           httpRequests := some 20 },
         { name := "q2", template := "T", sequence := none, error := true,
           httpRequests := some 999 }] =
      some { httpRequests := 15, httpRequestsMax := 20, httpRequestsMin := 10,
             httpRequestsStdSq := JNum.num 25 } ∧
     Real.sqrt 25 = 5) := by
  constructor
  · intro g h hne
    obtain ⟨v0, vrest, hvals⟩ := List.exists_cons_of_ne_nil hne
    have hfold := httpFold_eq g h v0 vrest hvals
    have hpos : (httpFold g).successfulExecutions > 0 := by
      rw [hfold]
      simp
    have hmean : httpMean g = (specHttpValues g).sum / ((specHttpValues g).length : ℚ) := by
      rw [httpMean, hfold, hvals]
    have hlen0 : (((specHttpValues g).length : ℕ) : ℚ) ≠ 0 := by
      rw [hvals, List.length_cons]
      exact_mod_cast Nat.succ_ne_zero vrest.length
    have hstd : httpStdSq g =
        JNum.num
          ((((specHttpValues g).map (fun v => (v - httpMean g) ^ 2)).sum) /
            ((specHttpValues g).length : ℚ)) := by
      rw [httpStdSq, stdStep_foldl_sum (httpMean g) g 0 h]
      have hn : ((httpFold g).successfulExecutions : ℚ) =
          ((specHttpValues g).length : ℚ) := by
        rw [hfold, hvals]
      rw [hn]
      simp only [JNum.div, zero_add]
      rw [if_neg hlen0]
    refine ⟨{ httpRequests := httpMean g
              httpRequestsMax := (httpFold g).requestsMax
              httpRequestsMin := (httpFold g).requestsMin
              httpRequestsStdSq := httpStdSq g }, ?_, hmean, ?_, ?_, ?_, ?_, ?_⟩
    · rw [aggregateHttpStats, if_pos hpos]
    · show (httpFold g).requestsMax ∈ specHttpValues g
      rw [hfold, hvals]
      exact foldl_max_mem vrest v0
    · intro v hv
      rw [hvals] at hv
      show v ≤ (httpFold g).requestsMax
      rw [hfold]
      exact mem_le_foldl_max vrest v0 v hv
    · show (httpFold g).requestsMin ∈ specHttpValues g
      rw [hfold, hvals]
      exact foldl_min_mem vrest v0
    · intro v hv
      rw [hvals] at hv
      show (httpFold g).requestsMin ≤ v
      rw [hfold]
      exact foldl_min_le_mem vrest v0 v hv
    · show httpStdSq g = _
      rw [hstd, hmean]
  · constructor
    · norm_num [aggregateHttpStats, httpFold, httpFoldStep, httpMean, httpStdSq, stdStep,
        jnumOfOpt, JNum.add, JNum.sub, JNum.sq, JNum.mul, JNum.div]
    · rw [show (25 : ℝ) = 5 ^ 2 by norm_num]
      exact Real.sqrt_sq (by norm_num)

/-- C5 witness: the general statement instantiated on the concrete
three-member group with values `[10, 20, error]`. -/
theorem C5_population_statistics_witness :
    ∃ s, aggregateHttpStats
        [{ name := "q0", template := "T", sequence := none, error := false,
           httpRequests := some 10 },
         { name := "q1", template := "T", sequence := none, error := false,
           httpRequests := some 20 },
         { name := "q2", template := "T", sequence := none, error := true,
           httpRequests := some 999 }] = some s ∧
      s.httpRequests =
        (specHttpValues
            [{ name := "q0", template := "T", sequence := none, error := false,
               httpRequests := some 10 },
             { name := "q1", template := "T", sequence := none, error := false,
               httpRequests := some 20 },
             { name := "q2", template := "T", sequence := none, error := true,
               httpRequests := some 999 }]).sum /
          ((specHttpValues
            [{ name := "q0", template := "T", sequence := none, error := false,
               httpRequests := some 10 },
             { name := "q1", template := "T", sequence := none, error := false,
               httpRequests := some 20 },
             { name := "q2", template := "T", sequence := none, error := true,
               httpRequests := some 999 }]).length : ℚ) ∧
      s.httpRequestsMax ∈ specHttpValues
        [{ name := "q0", template := "T", sequence := none, error := false,
           httpRequests := some 10 },
         { name := "q1", template := "T", sequence := none, error := false,
           httpRequests := some 20 },
         { name := "q2", template := "T", sequence := none, error := true,
           httpRequests := some 999 }] ∧
      (∀ v ∈ specHttpValues
        [{ name := "q0", template := "T", sequence := none, error := false,
           httpRequests := some 10 },
         { name := "q1", template := "T", sequence := none, error := false,
           httpRequests := some 20 },
         { name := "q2", template := "T", sequence := none, error := true,
           httpRequests := some 999 }], v ≤ s.httpRequestsMax) ∧
      s.httpRequestsMin ∈ specHttpValues
        [{ name := "q0", template := "T", sequence := none, error := false,
           httpRequests := some 10 },
         { name := "q1", template := "T", sequence := none, error := false,
           httpRequests := some 20 },
         { name := "q2", template := "T", sequence := none, error := true,
           httpRequests := some 999 }] ∧
      (∀ v ∈ specHttpValues
        [{ name := "q0", template := "T", sequence := none, error := false,
           httpRequests := some 10 },
         { name := "q1", template := "T", sequence := none, error := false,
           httpRequests := some 20 },
         { name := "q2", template := "T", sequence := none, error := true,
           httpRequests := some 999 }], s.httpRequestsMin ≤ v) ∧
      s.httpRequestsStdSq =
        JNum.num
          (((specHttpValues
              [{ name := "q0", template := "T", sequence := none, error := false,
                 httpRequests := some 10 },
               { name := "q1", template := "T", sequence := none, error := false,
                 httpRequests := some 20 },
               { name := "q2", template := "T", sequence := none, error := true,
                 httpRequests := some 999 }]).map
              (fun v =>
                (v - (specHttpValues
                    [{ name := "q0", template := "T", sequence := none, error := false,
                       httpRequests := some 10 },
                     { name := "q1", template := "T", sequence := none, error := false,
                       httpRequests := some 20 },
                     { name := "q2", template := "T", sequence := none, error := true,
                       httpRequests := some 999 }]).sum /
                  ((specHttpValues
                    [{ name := "q0", template := "T", sequence := none, error := false,
                       httpRequests := some 10 },
                     { name := "q1", template := "T", sequence := none, error := false,
                       httpRequests := some 20 },
                     { name := "q2", template := "T", sequence := none, error := true,
                       httpRequests := some 999 }]).length : ℚ)) ^ 2)).sum /
            ((specHttpValues
              [{ name := "q0", template := "T", sequence := none, error := false,
                 httpRequests := some 10 },
               { name := "q1", template := "T", sequence := none, error := false,
                 httpRequests := some 20 },
               { name := "q2", template := "T", sequence := none, error := true,
                 httpRequests := some 999 }]).length : ℚ)) := by
  refine C5_population_statistics.1 _ ?_ ?_
  · intro r hr hre
    rcases List.mem_cons.mp hr with h1 | h1
    · rw [h1]
      rfl
    · rcases List.mem_cons.mp h1 with h2 | h2
      · rw [h2]
        rfl
      · rw [List.mem_singleton.mp h2]
        rfl
  · intro hc
    simp [specHttpValues, List.filter_cons, List.filterMap_cons] at hc
